import Mathlib

/-!
Verification of the two command-line scripts of this repository:
`convert_to_onnx.py` (batch-converts `.pt` checkpoints to ONNX) and
`verify_onnx.py` (parses the exported `.onnx` files and prints reports).

The scripts are shallowly embedded: the filesystem is a value (`FS`),
the external ultralytics / onnx libraries are oracles passed as
function arguments, and each script body is translated line by line
into a pure Lean function returning the observable outcome of a run
(the built lists, the trace of external calls, the return value and
the process exit status).
-/

namespace UltraCopy

/-- Model of the local filesystem as seen through the fixed relative
path `checkpoints`: whether that directory exists, and its entries
`(filename, byte size)` in OS enumeration order (the order `os.scandir`
yields them, which is what `pathlib.Path.glob` iterates). -/
structure FS where
  dirExists : Bool
  entries : List (String × Nat)
deriving Repr, DecidableEq

/-- Filenames of the directory entries, in enumeration order. -/
def FS.entryNames (fs : FS) : List String :=
  fs.entries.map Prod.fst

/-- Suffix test on the decoded character lists; the same predicate as
`String.endsWith`, stated structurally so that it evaluates inside the
kernel. -/
def suffixMatch (ext n : String) : Bool :=
  ext.data.isSuffixOf n.data

/-- Model of `pathlib.Path.glob("*<ext>")`: the entries whose name ends
with the extension, in enumeration order (CPython's `Path.glob` performs
no sorting).  Globbing under a base directory that does not exist yields
no matches and raises nothing (pathlib returns an empty iterator). -/
def FS.glob (fs : FS) (ext : String) : List String :=
  if fs.dirExists then fs.entryNames.filter (fun n => suffixMatch ext n) else []

/-- Model of `os.path.getsize` for a file of the directory; meaningful
only for names present among the entries. -/
def FS.sizeOf (fs : FS) (name : String) : Nat :=
  ((fs.entries.find? (fun e => e.1 == name)).map Prod.snd).getD 0

/-- Model of `(checkpoints_dir / name).exists()`: the directory exists
and holds an entry with that name. -/
def FS.fileInDir (fs : FS) (name : String) : Bool :=
  fs.dirExists && fs.entries.any (fun e => e.1 == name)

/-- Keyword-argument bundle accepted by `model.export(...)` in
`convert_to_onnx.py` (the options the script passes). -/
structure ExportConfig where
  format : String
  imgsz : Nat
  optimize : Bool
  half : Bool
  dynamic : Bool
  simplify : Bool
  opset : Nat
deriving Repr, DecidableEq

/-- The external ultralytics capability used by the converter:
`YOLO(path)` (load, raising on failure, modelled as `Except` with the
exception message) and `model.export(...)` (here keyed by the
checkpoint path the model was loaded from; returns the output path or
raises). -/
structure Capability where
  load : String → Except String Unit
  exportModel : String → ExportConfig → Except String String

/-- One iteration of the converter's per-file `try` block
(`convert_to_onnx.py` lines 39-62): load the model, then call
`model.export` with the literal keyword arguments of lines 46-54.
Returns the outcome recorded for the file together with the trace of
`export` invocations the iteration performed (none when the load
already raised). -/
def attemptFile (cap : Capability) (file : String) :
    Except String String × List (String × ExportConfig) :=
  match cap.load file with
  | .error e => (.error e, [])
  | .ok _ =>
      let cfg : ExportConfig :=
        { format := "onnx", imgsz := 640, optimize := true, half := false,
          dynamic := false, simplify := true, opset := 11 }
      (cap.exportModel file cfg, [(file, cfg)])

/-- Mutable state of the converter's `for checkpoint_file in
checkpoint_files` loop: the two result lists, the trace of `export`
calls, and the order in which files entered the `try` block. -/
structure LoopState where
  successful : List (String × String)
  failed : List (String × String)
  exportCalls : List (String × ExportConfig)
  processedOrder : List String
deriving Repr, DecidableEq

/-- The converter's loop over the discovered checkpoint files, head
first (so the resulting lists are in the same left-to-right order the
Python loop appends them). -/
def convertLoop (cap : Capability) : List String → LoopState
  | [] => ⟨[], [], [], []⟩
  | f :: rest =>
    let s := convertLoop cap rest
    match attemptFile cap f with
    | (.ok p, cs) =>
        ⟨(f, p) :: s.successful, s.failed, cs ++ s.exportCalls, f :: s.processedOrder⟩
    | (.error e, cs) =>
        ⟨s.successful, (f, e) :: s.failed, cs ++ s.exportCalls, f :: s.processedOrder⟩

/-- Observable outcome of one run of `convert_checkpoints_to_onnx`. -/
structure ConvertOutcome where
  successful : List (String × String)
  failed : List (String × String)
  exportCalls : List (String × ExportConfig)
  processedOrder : List String
  ret : Bool
deriving Repr, DecidableEq

/-- Embedding of `convert_checkpoints_to_onnx` (`convert_to_onnx.py`
lines 12-84): missing directory → return `False`; no `*.pt` matches →
return `False`; otherwise run the per-file loop and return
`len(failed_conversions) == 0`. -/
def convert_checkpoints_to_onnx (cap : Capability) (fs : FS) : ConvertOutcome :=
  if fs.dirExists then
    let checkpoint_files := fs.glob ".pt"
    if checkpoint_files.isEmpty then ⟨[], [], [], [], false⟩
    else
      let s := convertLoop cap checkpoint_files
      ⟨s.successful, s.failed, s.exportCalls, s.processedOrder,
        s.failed.length == 0⟩
  else ⟨[], [], [], [], false⟩

/-- Embedding of the `__main__` block of `convert_to_onnx.py`:
`sys.exit(0 if success else 1)`. -/
def converterExit (cap : Capability) (fs : FS) : Nat :=
  if (convert_checkpoints_to_onnx cap fs).ret then 0 else 1

/-! ### verify_onnx.py -/

/-- Embedding of `get_file_size_mb` (`verify_onnx.py` lines 10-12):
byte size divided by `1024 * 1024`, as an exact rational (the Python
value is a float; the `:.1f` rendering of it is display formatting of
this quantity). -/
def get_file_size_mb (size_bytes : Nat) : ℚ :=
  (size_bytes : ℚ) / (1024 * 1024)

/-- One `dim` entry of an ONNX tensor shape; `dim_value` is the int64
payload (protobuf default 0 when the axis is symbolic). -/
structure DimProto where
  dim_value : Int
deriving Repr, DecidableEq

/-- One `ValueInfoProto` of `model.graph.input` / `model.graph.output`:
a name, the shape dims and the element-type code. -/
structure ValueInfo where
  name : String
  dims : List DimProto
  elem_type : Nat
deriving Repr, DecidableEq

/-- The part of a parsed ONNX model that `verify_onnx.py` reads:
the graph's declared inputs and outputs, and the versions of the
`opset_import` list. -/
structure OnnxModel where
  input : List ValueInfo
  output : List ValueInfo
  opset_import : List Int
deriving Repr, DecidableEq

/-- The per-tensor dictionary `analyze_onnx_model` builds:
`{'name': ..., 'shape': [dim.dim_value for dim in ...], 'dtype': ...}`. -/
structure TensorSummary where
  name : String
  shape : List Int
  dtype : Nat
deriving Repr, DecidableEq

/-- Value of the `'opset_version'` key: the first `opset_import`
version, or the string `'Unknown'` when the list is empty. -/
inductive OpsetVersion where
  | version (v : Int)
  | unknown
deriving Repr, DecidableEq

/-- The analysis dictionary of the success path of
`analyze_onnx_model`: keys `'inputs'`, `'outputs'`, `'opset_version'`. -/
structure Analysis where
  inputs : List TensorSummary
  outputs : List TensorSummary
  opset_version : OpsetVersion
deriving Repr, DecidableEq

/-- Translation of one tensor of the loops at `verify_onnx.py`
lines 21-36. -/
def summarize (t : ValueInfo) : TensorSummary :=
  ⟨t.name, t.dims.map (fun d => d.dim_value), t.elem_type⟩

/-- Embedding of `analyze_onnx_model` (`verify_onnx.py` lines 14-44).
`load` is the external `onnx.load` capability (raising is modelled as
`Except.error` with the exception message).  The Python function
returns one of two dictionary shapes — the descriptor, or
`{'error': str(e)}` — which the `Except` sum models; the `try` wraps
the whole body, so no exception escapes. -/
def analyze_onnx_model (load : String → Except String OnnxModel)
    (onnx_path : String) : Except String Analysis :=
  match load onnx_path with
  | .error e => .error e
  | .ok model =>
      .ok { inputs := model.input.map summarize,
            outputs := model.output.map summarize,
            opset_version :=
              match model.opset_import with
              | [] => .unknown
              | v :: _ => .version v }

/-- One line of the verifier's per-file report, structured by which
`print` of `verify_onnx_exports` (lines 64-83) produced it. -/
inductive ReportLine where
  | header (name : String)
  | sizeLine (mb : ℚ)
  | analysisError (msg : String)
  | opsetLine (v : OpsetVersion)
  | inputLine (name : String) (shape : List Int)
  | outputLine (ordinal : Nat) (name : String) (shape : List Int)
deriving Repr, DecidableEq

/-- Whether a report line is the `Input: ...` line. -/
def ReportLine.isInput : ReportLine → Bool
  | .inputLine _ _ => true
  | _ => false

/-- Whether a report line is an `Output i: ...` line. -/
def ReportLine.isOutput : ReportLine → Bool
  | .outputLine _ _ _ => true
  | _ => false

/-- Embedding of the per-file body of the `for onnx_file in
sorted(onnx_files)` loop (`verify_onnx.py` lines 63-85): name and size
lines, then either the error line or the opset line, the first-input
line (only when `analysis['inputs']` is non-empty) and one line per
output with the 1-based `enumerate` ordinal. -/
def fileReport (load : String → Except String OnnxModel) (fs : FS)
    (name : String) : List ReportLine :=
  [.header name, .sizeLine (get_file_size_mb (fs.sizeOf name))] ++
    match analyze_onnx_model load name with
    | .error e => [.analysisError e]
    | .ok a =>
        [.opsetLine a.opset_version] ++
        (match a.inputs with
         | [] => []
         | i0 :: _ => [.inputLine i0.name i0.shape]) ++
        a.outputs.enum.map (fun p => .outputLine (p.1 + 1) p.2.name p.2.shape)

/-- Strict lexicographic comparison of character lists by code point —
the order Python's `<` uses on strings. -/
def charListLt : List Char → List Char → Bool
  | [], [] => false
  | [], _ :: _ => true
  | _ :: _, [] => false
  | c :: cs, d :: ds =>
    if c.toNat < d.toNat then true
    else if d.toNat < c.toNat then false
    else charListLt cs ds

/-- Boolean string comparison used to model Python's `sorted` over the
globbed paths (they share the directory prefix, so path order is name
order). -/
def strLeb (a b : String) : Bool :=
  !(charListLt b.data a.data)

/-- Insertion of a name into an already sorted list. -/
def insertSorted (x : String) : List String → List String
  | [] => [x]
  | y :: ys => if strLeb x y then x :: y :: ys else y :: insertSorted x ys

/-- Model of Python's `sorted` on a list of names. -/
def lexSort (l : List String) : List String :=
  l.foldr insertSorted []

/-- The hardcoded `model_info` table of `verify_onnx.py` lines 93-100. -/
def model_info : List (String × String) :=
  [("yolo11n.onnx", "Fastest inference, lowest memory"),
   ("yolo11s.onnx", "Balance of speed and accuracy"),
   ("yolov10n.onnx", "Latest architecture, efficient"),
   ("yolov10s.onnx", "Good accuracy, moderate speed"),
   ("yolov8n.onnx", "Proven performance, good speed"),
   ("yolov9s.onnx", "High accuracy, slower inference")]

/-- One printed row of the comparison table (`verify_onnx.py`
line 106): model name, size in MB, the constant parameter-count
placeholder and the description. -/
structure TableRow where
  name : String
  sizeMB : ℚ
  parameters : String
  bestFor : String
deriving Repr, DecidableEq

/-- Embedding of the comparison-table loop (`verify_onnx.py` lines
102-106): for each `model_info` entry whose file exists in the
directory, a row with the file's size; entries whose file is absent
are skipped. -/
def comparisonTable (fs : FS) : List TableRow :=
  model_info.filterMap (fun p =>
    if fs.fileInDir p.1 then
      some ⟨p.1, get_file_size_mb (fs.sizeOf p.1), "~2-9M", p.2⟩
    else none)

/-- Observable outcome of one run of `verify_onnx_exports`: whether the
`No ONNX files found!` message was printed, the per-file reports in the
order printed, the comparison-table rows, and the return value. -/
structure VerifyOutcome where
  noFilesMessage : Bool
  reports : List (List ReportLine)
  table : List TableRow
  ret : Bool
deriving Repr, DecidableEq

/-- Embedding of `verify_onnx_exports` (`verify_onnx.py` lines 46-118):
glob `*.onnx` (the function never checks that the directory exists; an
absent directory just makes the glob empty), return `False` early with
the no-files message when nothing matched, otherwise report each file
in sorted order, print the comparison table and return `True`. -/
def verify_onnx_exports (load : String → Except String OnnxModel)
    (fs : FS) : VerifyOutcome :=
  let onnx_files := fs.glob ".onnx"
  if onnx_files.isEmpty then ⟨true, [], [], false⟩
  else
    ⟨false, (lexSort onnx_files).map (fileReport load fs),
      comparisonTable fs, true⟩

/-- Embedding of the `__main__` block of `verify_onnx.py`: it calls
`verify_onnx_exports()` and discards the return value, so the process
always exits with status 0 (the embedding is total, mirroring that the
script body raises nothing on an empty or missing directory). -/
def verifierMain (load : String → Except String OnnxModel) (fs : FS) : Nat :=
  let _ := verify_onnx_exports load fs
  0

/-! ### Fixtures used by the witness theorems -/

/-- Capability that loads and exports every checkpoint successfully. -/
def capOk : Capability :=
  ⟨fun _ => .ok (), fun f _ => .ok (f ++ ".onnx")⟩

/-- Capability whose load raises on `b.pt` and succeeds elsewhere. -/
def capBFails : Capability :=
  ⟨fun f => if f = "b.pt" then .error "bad magic" else .ok (),
   fun f _ => .ok (f ++ ".onnx")⟩

/-- Directory with two checkpoint files. -/
def wfsAB : FS := ⟨true, [("a.pt", 1), ("b.pt", 2)]⟩

/-- Directory with one checkpoint file. -/
def wfsA : FS := ⟨true, [("a.pt", 1)]⟩

/-- Directory whose enumeration order is not lexically sorted. -/
def wfsUnsorted : FS := ⟨true, [("b.pt", 1), ("a.pt", 1)]⟩

/-- Absent directory (entries irrelevant: nothing is visible). -/
def wfsMissing : FS := ⟨false, [("a.pt", 7)]⟩

/-- Directory with one exported model of exactly 1 MiB. -/
def fsOnnx : FS := ⟨true, [("yolo11n.onnx", 1048576)]⟩

/-- Parsed model used by the verifier witnesses: one declared input,
two declared outputs, opset list `[11]`. -/
def onnxModelW : OnnxModel :=
  ⟨[⟨"images", [⟨1⟩, ⟨3⟩, ⟨640⟩, ⟨640⟩], 1⟩],
   [⟨"output0", [⟨1⟩, ⟨84⟩, ⟨8400⟩], 1⟩, ⟨"output1", [⟨1⟩, ⟨32⟩], 1⟩],
   [11]⟩

/-- Parse oracle returning that model for every path. -/
def loadW : String → Except String OnnxModel := fun _ => .ok onnxModelW

/-- Analysis dictionary `analyze_onnx_model` builds for that model. -/
def aW : Analysis :=
  ⟨onnxModelW.input.map summarize, onnxModelW.output.map summarize,
    .version 11⟩

/-- Export configuration stated from the spec's words: portable (ONNX)
format, square input resolution 640, dynamic-shape disabled,
half-precision disabled, graph simplification enabled, inference
optimization enabled, pinned opset 11.  `converter_export_config_fixed`
shows every export call of the code carries exactly this bundle. -/
def fixedExportConfig : ExportConfig :=
  { format := "onnx", imgsz := 640, optimize := true, half := false,
    dynamic := false, simplify := true, opset := 11 }

/-! ### Lemmas about the converter loop -/

/-- Every file of the list enters the `try` block, in list order,
whatever the per-file outcomes are. -/
theorem convertLoop_processedOrder (cap : Capability) (files : List String) :
    (convertLoop cap files).processedOrder = files := by
  induction files with
  | nil => rfl
  | cons f rest ih =>
    rcases h : attemptFile cap f with ⟨r | r, cs⟩ <;> simp [convertLoop, h, ih]

/-- The two result lists of the loop together hold one entry per file. -/
theorem convertLoop_length (cap : Capability) (files : List String) :
    (convertLoop cap files).successful.length +
      (convertLoop cap files).failed.length = files.length := by
  induction files with
  | nil => rfl
  | cons f rest ih =>
    rcases h : attemptFile cap f with ⟨r | r, cs⟩ <;>
      simp [convertLoop, h] <;> omega

/-- Multiplicity accounting of the loop: a name occurs among the
successes plus the failures exactly as often as in the input list. -/
theorem convertLoop_count (cap : Capability) (files : List String) (f : String) :
    ((convertLoop cap files).successful.map Prod.fst).count f +
      ((convertLoop cap files).failed.map Prod.fst).count f = files.count f := by
  induction files with
  | nil => rfl
  | cons g rest ih =>
    rcases h : attemptFile cap g with ⟨r | r, cs⟩ <;>
      simp [convertLoop, h, List.count_cons] <;> omega

/-- The failure list of the loop records exactly the files whose
attempt raised, each paired with its exception message. -/
theorem convertLoop_failed (cap : Capability) (files : List String) :
    (convertLoop cap files).failed = files.filterMap (fun f =>
      match (attemptFile cap f).1 with
      | .error e => some (f, e)
      | .ok _ => none) := by
  induction files with
  | nil => rfl
  | cons g rest ih =>
    rcases h : attemptFile cap g with ⟨r | r, cs⟩ <;>
      simp [convertLoop, h, List.filterMap_cons, ih]

/-- Any export call of a single attempt carries the literal keyword
arguments of `convert_to_onnx.py` lines 46-54. -/
theorem attemptFile_calls_config (cap : Capability) (file : String)
    (c : String × ExportConfig) (hc : c ∈ (attemptFile cap file).2) :
    c.2 = ⟨"onnx", 640, true, false, false, true, 11⟩ := by
  unfold attemptFile at hc
  cases h : cap.load file with
  | error e => simp [h] at hc
  | ok u =>
      simp [h] at hc
      simp [hc]

/-- Any export call of the whole loop carries those same literal
keyword arguments. -/
theorem convertLoop_calls_config (cap : Capability) (files : List String)
    (c : String × ExportConfig) (hc : c ∈ (convertLoop cap files).exportCalls) :
    c.2 = ⟨"onnx", 640, true, false, false, true, 11⟩ := by
  induction files with
  | nil => simp [convertLoop] at hc
  | cons g rest ih =>
    rcases h : attemptFile cap g with ⟨r, cs⟩
    have hcs : cs = (attemptFile cap g).2 := by rw [h]
    cases r with
    | error e =>
        rw [convertLoop, h] at hc
        rcases List.mem_append.mp hc with hl | hr
        · exact attemptFile_calls_config cap g c (hcs ▸ hl)
        · exact ih hr
    | ok p =>
        rw [convertLoop, h] at hc
        rcases List.mem_append.mp hc with hl | hr
        · exact attemptFile_calls_config cap g c (hcs ▸ hl)
        · exact ih hr

/-! ### Claims -/

/-- C1: for every run of the converter, the process exit status is 0
iff the run discovered files and its per-file failure count is zero,
and it is 1 exactly when some conversion failed, no checkpoint files
were found, or the checkpoints directory is missing. -/
theorem converter_exit_status (cap : Capability) (fs : FS) :
    (converterExit cap fs = 1 ↔
      (fs.dirExists = false ∨ fs.glob ".pt" = [] ∨
        (convert_checkpoints_to_onnx cap fs).failed ≠ [])) ∧
    (converterExit cap fs = 0 ↔
      (fs.dirExists = true ∧ fs.glob ".pt" ≠ [] ∧
        (convert_checkpoints_to_onnx cap fs).failed = [])) := by
  unfold converterExit convert_checkpoints_to_onnx
  cases hd : fs.dirExists with
  | false => simp [FS.glob, hd]
  | true =>
      simp only [if_true, hd]
      cases he : (fs.glob ".pt").isEmpty with
      | true => simp [List.isEmpty_iff.mp he]
      | false =>
          have hne : fs.glob ".pt" ≠ [] := by
            intro hnil
            rw [hnil] at he
            simp at he
          cases hf : (convertLoop cap (fs.glob ".pt")).failed with
          | nil => simp [he, hf, hne]
          | cons p l => simp [he, hf, hne]

/-- C2: every discovered checkpoint file is recorded in exactly one of
the successful or failed lists, so the printed successful count plus
the printed failed count equals the discovered count (stated both as a
length equation and as a per-name multiplicity equation). -/
theorem converter_partitions_files (cap : Capability) (fs : FS)
    (h : fs.dirExists = true) :
    ((convert_checkpoints_to_onnx cap fs).successful.length +
        (convert_checkpoints_to_onnx cap fs).failed.length =
      (fs.glob ".pt").length) ∧
    ∀ f : String,
      ((convert_checkpoints_to_onnx cap fs).successful.map Prod.fst).count f +
          ((convert_checkpoints_to_onnx cap fs).failed.map Prod.fst).count f =
        (fs.glob ".pt").count f := by
  unfold convert_checkpoints_to_onnx
  simp only [h, if_true]
  cases he : (fs.glob ".pt").isEmpty with
  | true => simp [List.isEmpty_iff.mp he]
  | false =>
      simp only [he, Bool.false_eq_true, if_false]
      exact ⟨convertLoop_length cap _, fun f => convertLoop_count cap _ f⟩

/-- C2 witness: a run over `a.pt` (converts) and `b.pt` (fails to
load) yields 1 + 1 = 2 and the per-name accounting at `b.pt`. -/
theorem converter_partitions_files_witness :
    wfsAB.dirExists = true ∧
    ((convert_checkpoints_to_onnx capBFails wfsAB).successful.length +
        (convert_checkpoints_to_onnx capBFails wfsAB).failed.length =
      (wfsAB.glob ".pt").length) ∧
    (((convert_checkpoints_to_onnx capBFails wfsAB).successful.map Prod.fst).count "b.pt" +
        ((convert_checkpoints_to_onnx capBFails wfsAB).failed.map Prod.fst).count "b.pt" =
      (wfsAB.glob ".pt").count "b.pt") :=
  ⟨rfl, (converter_partitions_files capBFails wfsAB rfl).1,
    (converter_partitions_files capBFails wfsAB rfl).2 "b.pt"⟩

/-- C3: every discovered file enters the per-file `try` block in order
regardless of earlier outcomes, and the failed list records exactly the
files whose load-or-export raised, each as a (filename, message) pair;
so a failure on one file never prevents the next from being attempted. -/
theorem converter_isolates_failures (cap : Capability) (fs : FS)
    (h : fs.dirExists = true) :
    ((convert_checkpoints_to_onnx cap fs).processedOrder = fs.glob ".pt") ∧
    (convert_checkpoints_to_onnx cap fs).failed =
      (fs.glob ".pt").filterMap (fun f =>
        match (attemptFile cap f).1 with
        | .error e => some (f, e)
        | .ok _ => none) := by
  unfold convert_checkpoints_to_onnx
  simp only [h, if_true]
  cases he : (fs.glob ".pt").isEmpty with
  | true => simp [List.isEmpty_iff.mp he]
  | false =>
      simp only [he, Bool.false_eq_true, if_false]
      exact ⟨convertLoop_processedOrder cap _, convertLoop_failed cap _⟩

/-- C3 witness: with `b.pt` enumerated before `a.pt` and failing to
load, `a.pt` is still attempted afterwards and the failure is recorded
with its message. -/
theorem converter_isolates_failures_witness :
    wfsUnsorted.dirExists = true ∧
    ((convert_checkpoints_to_onnx capBFails wfsUnsorted).processedOrder =
      wfsUnsorted.glob ".pt") ∧
    (convert_checkpoints_to_onnx capBFails wfsUnsorted).failed =
      (wfsUnsorted.glob ".pt").filterMap (fun f =>
        match (attemptFile capBFails f).1 with
        | .error e => some (f, e)
        | .ok _ => none) :=
  ⟨rfl, (converter_isolates_failures capBFails wfsUnsorted rfl).1,
    (converter_isolates_failures capBFails wfsUnsorted rfl).2⟩

/-- C4 counterexample: the converter iterates `checkpoints_dir.glob("*.pt")`
directly, without sorting, so when the directory enumeration yields
`b.pt` before `a.pt` the attempted sequence is not the lexically sorted
sequence of matching filenames. -/
theorem converter_order_not_sorted :
    (convert_checkpoints_to_onnx capOk wfsUnsorted).processedOrder ≠
      lexSort (wfsUnsorted.glob ".pt") := by
  decide

/-- C4 (amended): the converter processes the discovered checkpoint
files exactly in the order the directory glob yields them — the stable
filter of the directory enumeration order — which need not be lexically
sorted. -/
theorem converter_processes_in_glob_order (cap : Capability) (fs : FS)
    (h : fs.dirExists = true) :
    (convert_checkpoints_to_onnx cap fs).processedOrder = fs.glob ".pt" := by
  unfold convert_checkpoints_to_onnx
  simp only [h, if_true]
  cases he : (fs.glob ".pt").isEmpty with
  | true => simp [List.isEmpty_iff.mp he]
  | false =>
      simp only [he, Bool.false_eq_true, if_false]
      exact convertLoop_processedOrder cap _

/-- C4 witness: on the unsorted directory the attempted sequence equals
the glob order `["b.pt", "a.pt"]`. -/
theorem converter_processes_in_glob_order_witness :
    wfsUnsorted.dirExists = true ∧
    (convert_checkpoints_to_onnx capOk wfsUnsorted).processedOrder =
      wfsUnsorted.glob ".pt" :=
  ⟨rfl, converter_processes_in_glob_order capOk wfsUnsorted rfl⟩


/-- C5: every invocation of the export capability the converter makes,
on any run, carries exactly the fixed configuration. -/
theorem converter_export_config_fixed (cap : Capability) (fs : FS)
    (c : String × ExportConfig)
    (hc : c ∈ (convert_checkpoints_to_onnx cap fs).exportCalls) :
    c.2 = fixedExportConfig := by
  unfold convert_checkpoints_to_onnx at hc
  cases hd : fs.dirExists with
  | false => simp [hd] at hc
  | true =>
      simp only [hd, if_true] at hc
      cases he : (fs.glob ".pt").isEmpty with
      | true => simp [he] at hc
      | false =>
          simp only [he, Bool.false_eq_true, if_false] at hc
          exact convertLoop_calls_config cap _ c hc

/-- C5 witness: the single export call of a one-file run carries the
fixed configuration. -/
theorem converter_export_config_fixed_witness :
    ("a.pt", fixedExportConfig) ∈
      (convert_checkpoints_to_onnx capOk wfsA).exportCalls ∧
    ("a.pt", fixedExportConfig).2 = fixedExportConfig :=
  ⟨by decide,
    converter_export_config_fixed capOk wfsA ("a.pt", fixedExportConfig)
      (by decide)⟩

/-- C8: when the checkpoints directory does not exist the converter
exits with status 1 having attempted nothing: no file entered the
`try` block (so no load was attempted) and no export call was made —
the only filesystem writes the script performs happen inside the export
capability, so an empty call trace is a run with no writes. -/
theorem converter_missing_dir (cap : Capability) (fs : FS)
    (h : fs.dirExists = false) :
    converterExit cap fs = 1 ∧
    (convert_checkpoints_to_onnx cap fs).processedOrder = [] ∧
    (convert_checkpoints_to_onnx cap fs).exportCalls = [] := by
  unfold converterExit convert_checkpoints_to_onnx
  simp [h]

/-- C8 witness: a missing directory holding (invisible) `a.pt`. -/
theorem converter_missing_dir_witness :
    wfsMissing.dirExists = false ∧
    (converterExit capOk wfsMissing = 1 ∧
      (convert_checkpoints_to_onnx capOk wfsMissing).processedOrder = [] ∧
      (convert_checkpoints_to_onnx capOk wfsMissing).exportCalls = []) :=
  ⟨rfl, converter_missing_dir capOk wfsMissing rfl⟩

/-- C6: for a well-formed exported file — one whose analysis succeeds
and declares at least one input — the per-file report holds exactly one
input line, carrying the first declared input tensor's name and
dimension list, and exactly one line per declared output tensor in
declaration order, the line at position k carrying ordinal k + 1. -/
theorem verifier_report_shape (load : String → Except String OnnxModel)
    (fs : FS) (name : String) (a : Analysis) (i0 : TensorSummary)
    (rest : List TensorSummary)
    (ha : analyze_onnx_model load name = Except.ok a)
    (hi : a.inputs = i0 :: rest) :
    (fileReport load fs name).filter ReportLine.isInput =
        [ReportLine.inputLine i0.name i0.shape] ∧
    (fileReport load fs name).filter ReportLine.isOutput =
        a.outputs.enum.map
          (fun p => ReportLine.outputLine (p.1 + 1) p.2.name p.2.shape) := by
  unfold fileReport
  rw [ha]
  dsimp only
  rw [hi]
  dsimp only
  constructor
  · simp [List.filter_append, ReportLine.isInput, List.filter_map,
      Function.comp]
  · simp [List.filter_append, ReportLine.isOutput, List.filter_map,
      Function.comp]
    congr 1
    exact List.filter_eq_self.mpr (fun x hx => rfl)

/-- C6 witness: a model with one input and two outputs yields one input
line and output lines with ordinals 1 and 2. -/
theorem verifier_report_shape_witness :
    analyze_onnx_model loadW "yolo11n.onnx" = Except.ok aW ∧
    aW.inputs = summarize ⟨"images", [⟨1⟩, ⟨3⟩, ⟨640⟩, ⟨640⟩], 1⟩ :: [] ∧
    (fileReport loadW fsOnnx "yolo11n.onnx").filter ReportLine.isInput =
        [ReportLine.inputLine "images" [1, 3, 640, 640]] ∧
    (fileReport loadW fsOnnx "yolo11n.onnx").filter ReportLine.isOutput =
        [ReportLine.outputLine 1 "output0" [1, 84, 8400],
         ReportLine.outputLine 2 "output1" [1, 32]] := by
  have h := verifier_report_shape loadW fsOnnx "yolo11n.onnx" aW
    (summarize ⟨"images", [⟨1⟩, ⟨3⟩, ⟨640⟩, ⟨640⟩], 1⟩) [] rfl rfl
  exact ⟨rfl, rfl, h.1, h.2⟩

/-- Every row of the comparison table comes from a `model_info` entry
whose file is present in the directory, and carries that file's size. -/
theorem table_row_mem (fs : FS) (row : TableRow)
    (hrow : row ∈ comparisonTable fs) :
    ∃ p ∈ model_info, fs.fileInDir p.1 = true ∧
      row = ⟨p.1, get_file_size_mb (fs.sizeOf p.1), "~2-9M", p.2⟩ := by
  rcases List.mem_filterMap.mp hrow with ⟨p, hp, hsome⟩
  by_cases hdir : fs.fileInDir p.1 = true
  · rw [if_pos hdir] at hsome
    exact ⟨p, hp, hdir, (Option.some.inj hsome).symm⟩
  · rw [if_neg hdir] at hsome
    exact Option.noConfusion hsome

/-- C7: for every canonical filename of the hardcoded table, a row is
printed iff that filename exists in the scanned directory, and every
row printed for it shows the file's actual byte size divided by
1,048,576 (as the exact value whose one-decimal rendering the script
prints). -/
theorem comparison_table_rows (fs : FS) (name desc : String)
    (hmem : (name, desc) ∈ model_info) :
    ((comparisonTable fs).any (fun row => row.name == name) =
      fs.fileInDir name) ∧
    ∀ row, row ∈ comparisonTable fs → row.name = name →
      row.sizeMB = (fs.sizeOf name : ℚ) / 1048576 := by
  constructor
  · cases hin : fs.fileInDir name with
    | true =>
        apply List.any_eq_true.mpr
        refine ⟨⟨name, get_file_size_mb (fs.sizeOf name), "~2-9M", desc⟩,
          ?_, by simp⟩
        apply List.mem_filterMap.mpr
        exact ⟨(name, desc), hmem, by simp [hin]⟩
    | false =>
        apply List.any_eq_false.mpr
        intro row hrow
        rcases table_row_mem fs row hrow with ⟨p, hp, hdir, hval⟩
        simp only [hval, beq_iff_eq]
        intro hname
        rw [hname] at hdir
        rw [hdir] at hin
        exact Bool.true_eq_false.mp hin
  · intro row hrow hname
    rcases table_row_mem fs row hrow with ⟨p, hp, hdir, hval⟩
    have hp1 : p.1 = name := by rw [hval] at hname; exact hname
    rw [hval, hp1]
    unfold get_file_size_mb
    norm_num

/-- C7 witness: a directory holding `yolo11n.onnx` of exactly 1 MiB
yields a row whose size value is 1048576 / 1048576. -/
theorem comparison_table_rows_witness :
    ("yolo11n.onnx", "Fastest inference, lowest memory") ∈ model_info ∧
    ((comparisonTable fsOnnx).any
        (fun row => row.name == "yolo11n.onnx") =
      fsOnnx.fileInDir "yolo11n.onnx") ∧
    (TableRow.mk "yolo11n.onnx" (get_file_size_mb 1048576) "~2-9M"
        "Fastest inference, lowest memory" ∈ comparisonTable fsOnnx) ∧
    (TableRow.mk "yolo11n.onnx" (get_file_size_mb 1048576) "~2-9M"
        "Fastest inference, lowest memory").sizeMB =
      ((fsOnnx.sizeOf "yolo11n.onnx" : ℚ) / 1048576) := by
  have h := comparison_table_rows fsOnnx "yolo11n.onnx"
    "Fastest inference, lowest memory" (by decide)
  have hm : TableRow.mk "yolo11n.onnx" (get_file_size_mb 1048576) "~2-9M"
      "Fastest inference, lowest memory" ∈ comparisonTable fsOnnx := by
    simp [comparisonTable, model_info, FS.fileInDir, fsOnnx, FS.sizeOf]
  exact ⟨by decide, h.1, hm, h.2 _ hm rfl⟩

/-- C9: the verifier never tests that the checkpoints directory exists;
with a missing directory its glob yields zero files, so its outcome —
the no-files message and the `False` return — is identical to the
outcome on an existing empty directory, nothing is raised (the
embedding is total), and the `__main__` block, which ignores the return
value, exits 0 in both cases. -/
theorem verifier_missing_dir_like_empty
    (load : String → Except String OnnxModel)
    (entries : List (String × Nat)) :
    verify_onnx_exports load ⟨false, entries⟩ =
        verify_onnx_exports load ⟨true, []⟩ ∧
    (verify_onnx_exports load ⟨false, entries⟩).noFilesMessage = true ∧
    (verify_onnx_exports load ⟨false, entries⟩).ret = false ∧
    verifierMain load ⟨false, entries⟩ = 0 ∧
    verifierMain load ⟨true, []⟩ = 0 :=
  ⟨rfl, rfl, rfl, rfl, rfl⟩

/-- C10: `analyze_onnx_model` is total over its input: for every parse
oracle and path it returns either the descriptor dictionary or an
error dictionary carrying exactly the exception message of the failed
load; no exception propagates to the caller. -/
theorem analyze_onnx_model_total (load : String → Except String OnnxModel)
    (p : String) :
    (∃ a : Analysis, analyze_onnx_model load p = Except.ok a) ∨
    (∃ e : String, load p = Except.error e ∧
      analyze_onnx_model load p = Except.error e) := by
  rcases h : load p with e | m
  · exact Or.inr ⟨e, rfl, by simp [analyze_onnx_model, h]⟩
  · refine Or.inl ⟨⟨m.input.map summarize, m.output.map summarize,
      match m.opset_import with
      | [] => .unknown
      | v :: _ => .version v⟩, ?_⟩
    simp [analyze_onnx_model, h]

end UltraCopy
